import Mathlib

/-!
Verification development for the kindlepathy repository (Go).

This file shallowly embeds the parts of the code that the checked
properties speak about:

* the navigation inference engine (`extractNav`, `scoreElement`,
  `matchesPatterns`, `getURLfromElem`, `isURLsameSiteDiffPage`,
  `resolveURL` from the nav source file), together with the fragment of
  Go's `net/url` parsing/resolution that those functions use;
* the readability client supervisor (`Close`, `Parse`, `healthcheck`,
  `NewReadabilityClient`), embedded as a state machine with an explicit
  environment describing the behaviour of the worker process;
* the brotli compression wrappers (`CompressHTML` / `DecompressHTML`),
  with the external brotli library abstracted as a codec parameter.

Machine strings are Lean `String`s; Go byte lengths are modelled with
UTF-8 byte size.  Go `float64` ratio arithmetic in `scoreElement` is
modelled with exact rational (natural-division) arithmetic; the division
`len(pattern)/len(field)` always has both operands far below 2^53, and
the only place a score value is compared is candidate selection, which is
proved for arbitrary integer scores, so the modelling of float rounding
is not load-bearing; concrete evaluations in this file only use ratios
where IEEE-754 arithmetic is exact.
-/

namespace Kindlepathy

/-! ### Character-list string helpers (ASCII fragment of Go's strings package) -/

/-- Unicode-aware lowercasing in Go `strings.ToLower`, restricted to the
ASCII range (all dictionary patterns and inputs used here are already
lowercase outside ASCII). -/
def asciiLower (s : String) : String := String.mk (s.data.map Char.toLower)

/-- Go `strings.TrimSpace` (whitespace trim on both ends). -/
def strTrim (s : String) : String :=
  String.mk (((s.data.dropWhile Char.isWhitespace).reverse.dropWhile Char.isWhitespace).reverse)

/-- Does `needle` occur at the head of `hay`? -/
def leadMatch : List Char → List Char → Bool
  | [], _ => true
  | _ :: _, [] => false
  | n :: ns, h :: hs => n = h && leadMatch ns hs

/-- Does `needle` occur anywhere in `hay`?  (Go `strings.Contains`.) -/
def hasRun (hay needle : List Char) : Bool :=
  if leadMatch needle hay then true
  else match hay with
    | [] => false
    | _ :: t => hasRun t needle

/-- Go `strings.Contains` on strings. -/
def strHas (hay needle : String) : Bool := hasRun hay.data needle.data

/-- Index of the first occurrence of character `c` (Go `strings.Index` with a
one-character needle), as a character index. -/
def idxOfChar (c : Char) : List Char → Option Nat
  | [] => none
  | h :: t => if h = c then some 0 else (idxOfChar c t).map (· + 1)

/-- Index of the last occurrence of `c` (Go `strings.LastIndex` with a
one-character needle), as a character index. -/
def lastIdxOfChar (c : Char) (l : List Char) : Option Nat :=
  (idxOfChar c l.reverse).map (fun i => l.length - 1 - i)

/-- Go `strings.Cut` at the first occurrence of a character: returns the part
before and, when the character occurs, the part after it. -/
def cutChar (c : Char) (l : List Char) : List Char × Option (List Char) :=
  match l with
  | [] => ([], none)
  | h :: t =>
    if h = c then ([], some t)
    else
      let r := cutChar c t
      (h :: r.1, r.2)

/-- UTF-8 encoded size of a character, as in Go's byte-oriented `len`. -/
def charUtf8Size (c : Char) : Nat :=
  if c.toNat < 0x80 then 1
  else if c.toNat < 0x800 then 2
  else if c.toNat < 0x10000 then 3
  else 4

/-- Go `len` on a string: number of UTF-8 bytes. -/
def byteLen (s : String) : Nat := (s.data.map charUtf8Size).sum

/-! ### The fragment of Go `net/url` used by the nav engine

Modelled: scheme detection, authority (host) splitting, path/query/fragment
splitting, opaque (rootless-path) URLs, reference resolution
(`ResolveReference` with Go's `resolvePath` dot-segment cleaning), and
serialization.  Not modelled (not exercised by this code's call sites):
userinfo, percent-escaping, host validation, `ForceQuery`/`OmitHost`.
Go's parse errors are modelled as `none`; the modelled error domain is
ASCII control characters (Go: "invalid control character in URL"),
a leading colon (Go: "missing protocol scheme") and a colon in the first
path segment of a scheme-less URL. -/

structure GoURL where
  scheme : String
  opq : String
  host : String
  path : String
  query : String
  fragment : String
deriving DecidableEq, Repr

/-- Go `getScheme`: scan for `scheme:`.  Returns `none` on the
missing-protocol-scheme error, otherwise the (lowercased) scheme and the
remainder; a URL with no scheme yields `("", orig)`. -/
def schemeScan (orig : List Char) : List Char → List Char → Option (String × List Char)
  | _, [] => some ("", orig)
  | acc, c :: rest =>
    if c.isAlpha then schemeScan orig (acc ++ [c]) rest
    else if c.isDigit || c = '+' || c = '-' || c = '.' then
      if acc = [] then some ("", orig) else schemeScan orig (acc ++ [c]) rest
    else if c = ':' then
      if acc = [] then none
      else some (String.mk (acc.map Char.toLower), rest)
    else some ("", orig)

/-- Go `url.Parse` (fragment described above). -/
def goParse (rawURL : String) : Option GoURL :=
  if rawURL.data.any (fun c => c.toNat < 0x20 || c.toNat = 0x7f) then none
  else
    let cutF := cutChar '#' rawURL.data
    let frag := match cutF.2 with
      | none => ""
      | some f => String.mk f
    match schemeScan cutF.1 [] cutF.1 with
    | none => none
    | some sr =>
      let scheme := sr.1
      let cutQ := cutChar '?' sr.2
      let query := match cutQ.2 with
        | none => ""
        | some q => String.mk q
      let rest := cutQ.1
      if ¬ (rest.head? = some '/') then
        if scheme ≠ "" then
          some ⟨scheme, String.mk rest, "", "", query, frag⟩
        else
          -- scheme-less: first path segment must not contain a colon
          if (rest.takeWhile (· ≠ '/')).any (· = ':') then none
          else some ⟨"", "", "", String.mk rest, query, frag⟩
      else
        if rest.head? = some '/' ∧ (rest.drop 1).head? = some '/' then
          let afterSS := rest.drop 2
          let auth := afterSS.takeWhile (· ≠ '/')
          let pathRest := afterSS.dropWhile (· ≠ '/')
          some ⟨scheme, "", String.mk auth, String.mk pathRest, query, frag⟩
        else
          some ⟨scheme, "", "", String.mk rest, query, frag⟩

/-- Split at every occurrence of a character (Go `strings.Cut` loop /
`strings.Split` with a one-character separator). -/
def splitAtChar (c : Char) : List Char → List (List Char)
  | [] => [[]]
  | h :: t =>
    if h = c then [] :: splitAtChar c t
    else
      match splitAtChar c t with
      | [] => [[h]]
      | s :: ss => (h :: s) :: ss

/-- One segment step of Go's `resolvePath` cleaning loop.  The state is the
accumulated output (with its initial `/`) and the `first` flag. -/
def segStep (acc : String × Bool) (e : String) : String × Bool :=
  if e = "." then (acc.1, false)
  else if e = ".." then
    let str := String.mk (acc.1.data.drop 1)
    match lastIdxOfChar '/' str.data with
    | none => ("/", true)
    | some idx => (String.mk ('/' :: str.data.take idx), acc.2)
  else
    let dst := if acc.2 then acc.1 else acc.1 ++ "/"
    (dst ++ e, false)

/-- Go `resolvePath(base, ref)`: merge and clean dot segments. -/
def goResolvePath (base ref : String) : String :=
  let full :=
    if ref = "" then base
    else if ref.data.head? ≠ some '/' then
      match lastIdxOfChar '/' base.data with
      | none => ref
      | some i => String.mk (base.data.take (i + 1)) ++ ref
    else ref
  if full = "" then ""
  else
    let segs := (splitAtChar '/' full.data).map String.mk
    let out := segs.foldl segStep ("/", true)
    let withTrail :=
      match segs.getLast? with
      | some e => if e = "." ∨ e = ".." then out.1 ++ "/" else out.1
      | none => out.1
    if withTrail.length > 1 ∧ (withTrail.data.drop 1).head? = some '/' then
      String.mk (withTrail.data.drop 1)
    else withTrail

/-- Go `(*URL).ResolveReference`. -/
def resolveReference (u ref : GoURL) : GoURL :=
  let scheme := if ref.scheme = "" then u.scheme else ref.scheme
  if ref.scheme ≠ "" ∨ ref.host ≠ "" then
    ⟨scheme, ref.opq, ref.host, goResolvePath ref.path "", ref.query, ref.fragment⟩
  else if ref.opq ≠ "" then
    ⟨scheme, ref.opq, "", "", ref.query, ref.fragment⟩
  else
    let query := if ref.path = "" ∧ ref.query = "" then u.query else ref.query
    let fragment :=
      if ref.path = "" ∧ ref.query = "" ∧ ref.fragment = "" then u.fragment else ref.fragment
    ⟨scheme, "", u.host, goResolvePath u.path ref.path, query, fragment⟩

/-- Go `(*URL).Parse`: parse a reference and resolve it against `u`. -/
def goParseRel (u : GoURL) (ref : String) : Option GoURL :=
  (goParse ref).map (resolveReference u)

/-- Go `(*URL).String` (fragment; no escaping/userinfo). -/
def GoURL.render (u : GoURL) : String :=
  let s := if u.scheme ≠ "" then u.scheme ++ ":" else ""
  let s :=
    if u.opq ≠ "" then s ++ u.opq
    else
      let s :=
        if u.scheme ≠ "" ∨ u.host ≠ "" then
          (if u.host ≠ "" ∨ u.path ≠ "" then s ++ "//" else s) ++ u.host
        else s
      let s :=
        if u.path ≠ "" ∧ u.path.data.head? ≠ some '/' ∧ u.host ≠ "" then s ++ "/" else s
      s ++ u.path
  let s := if u.query ≠ "" then s ++ "?" ++ u.query else s
  if u.fragment ≠ "" then s ++ "#" ++ u.fragment else s

/-! ### Nav inference engine

The goquery document scan `doc.Find(selector).Each` is modelled by the
input list of elements in document scan order; each element carries the
attribute values the engine reads plus the contextual facts goquery
queries supply (`Closest("nav")`, the sidebar selectors, and the link
count of the closest `ul, ol` ancestor).  A failed goquery document
parse yields an empty scan, covered by the empty-list case. -/

/-- Go `patternsNext` from the nav source. -/
def patternsNext : List String :=
  ["next", "→", ">", ">>", "next chapter", "continue reading", "continue",
   "read more", "next page", "forward", "next post", "next article",
   "next entry", "next story", "next part", "next section", "proceed",
   "advance", "onward", "siguiente", "weiter", "suivant"]

/-- Go `patternsPrev` from the nav source. -/
def patternsPrev : List String :=
  ["previous", "prev", "←", "<", "<<", "back", "previous chapter",
   "prev chapter", "previous page", "back to", "previous post", "prev post",
   "previous article", "prev article", "previous entry", "prev entry",
   "previous story", "prev story", "previous part", "prev part",
   "previous section", "prev section", "return", "go back", "anterior",
   "zurück", "précédent"]

/-- One element matched by the discovery selector, with the attributes and
contextual facts the engine reads from it. -/
structure Elem where
  href : String
  dataHref : String
  dataUrl : String
  dataLink : String
  onclick : String
  id : String
  className : String
  titleAttr : String
  ariaLabel : String
  alt : String
  rel : String
  text : String
  /-- Go `s.Closest("nav").Length() > 0` -/
  insideNav : Bool
  /-- Go `s.Closest(sel).Length() > 0` for one of the sidebar selectors -/
  insideSidebar : Bool
  /-- Go `s.Closest("ul, ol")`: `none` when there is no list ancestor, otherwise
  the number of `a` descendants of that list. -/
  parentListLinks : Option Nat
deriving DecidableEq, Repr

/-- Go `extractURLFromOnclick`: best-effort string scan of an onclick value for
a location assignment.  Indices are modelled as character indices (the Go
code slices bytes; identical on ASCII input). -/
def quoteSlice (oc : List Char) : Option String :=
  let start := match idxOfChar '\'' oc with
    | some i => some (i, '\'')
    | none => (idxOfChar '"' oc).map (fun i => (i, '"'))
  match start with
  | none => none
  | some iq =>
    let after := oc.drop (iq.1 + 1)
    match idxOfChar iq.2 after with
    | none => none
    | some j => some (String.mk (after.take j))

def extractURLFromOnclick (onclick : String) : String :=
  let oc := (strTrim onclick).data
  let first := if hasRun oc "location.href".data then quoteSlice oc else none
  match first with
  | some s => s
  | none =>
    match (if hasRun oc "window.location".data then quoteSlice oc else none) with
    | some s => s
    | none => ""

/-- Go `getURLfromElem`: attribute priority `href`, `data-href`, `data-url`,
`data-link`, then the onclick scan. -/
def getURLfromElem (s : Elem) : String :=
  if s.href ≠ "" then s.href
  else if s.dataHref ≠ "" then s.dataHref
  else if s.dataUrl ≠ "" then s.dataUrl
  else if s.dataLink ≠ "" then s.dataLink
  else if s.onclick ≠ "" then extractURLFromOnclick s.onclick
  else ""

/-- Go `isURLsameSiteDiffPage`: the element URL, resolved against the page URL,
must keep the host and change the path; unparsable URLs are rejected. -/
def isURLsameSiteDiffPage (pageURL elemURL : String) : Bool :=
  match goParse pageURL with
  | none => false
  | some baseU =>
    match goParseRel baseU elemURL with
    | none => false
    | some elemU => elemU.host = baseU.host && elemU.path ≠ baseU.path

/-- Go `resolveURL`: absolute form of the element URL; on parse failure the
element URL is returned unchanged. -/
def resolveURL (elemURL baseURL : String) : String :=
  match goParse baseURL with
  | none => elemURL
  | some base =>
    match goParseRel base elemURL with
    | none => elemURL
    | some resolved => resolved.render

/-- Go `matchesPatterns`: case-insensitive exact-or-substring match of any
pattern against text/id/class/title/aria-label/alt. -/
def matchesPatterns (s : Elem) (patterns : List String) : Bool :=
  let fields := [asciiLower (strTrim s.text), asciiLower s.id, asciiLower s.className,
                 asciiLower s.titleAttr, asciiLower s.ariaLabel, asciiLower s.alt]
  patterns.any fun p =>
    let p := asciiLower (strTrim p)
    fields.any fun f => f = p || strHas f p

/-- Go `hasSemanticNavAttributes`. -/
def hasSemanticNavAttributes (s : Elem) (direction : String) : Bool :=
  let rel := asciiLower s.rel
  if direction = "next" ∧ rel = "next" then true
  else if direction = "prev" ∧ rel = "prev" then true
  else false

/-- The navigation-class vocabulary of scoring tier 2. -/
def navClasses : List String :=
  ["nav-next", "nav-previous", "navigation", "pager", "pagination"]

/-- The best-ratio loop of `scoreElement` over one field: the byte length of
the longest pattern contained in the field (`none` when no pattern
matches).  With a fixed field the Go float ratio `len(p)/len(field)` is
maximal exactly at the longest matching pattern. -/
def bestMatchedLen (field : String) (patterns : List String) : Option Nat :=
  patterns.foldl
    (fun best p =>
      let p := asciiLower (strTrim p)
      if strHas field p then
        match best with
        | none => some (byteLen p)
        | some b => if byteLen p > b then some (byteLen p) else some b
      else best)
    none

/-- Go `int(scale * bestRatio)` for one field: zero when nothing matches,
otherwise the truncated scaled ratio (exact rational arithmetic stands in
for `float64`). -/
def ratioContribution (scale : Nat) (field : String) (patterns : List String) : Int :=
  match bestMatchedLen field patterns with
  | none => 0
  | some l => Int.ofNat (scale * l / byteLen field)

/-- The attribute fields scanned by the tier-3 attribute loop of
`scoreElement`, in source order. -/
def attrFields (s : Elem) : List String :=
  [asciiLower s.id, asciiLower s.className, asciiLower s.titleAttr,
   asciiLower s.ariaLabel, asciiLower s.alt]

/-- Go `scoreElement`, mirroring the Go control flow tier by tier. -/
def scoreElement (s : Elem) (patterns : List String) : Int :=
  let score : Int := 0
  -- Tier 1: semantic rel attribute
  let rel := asciiLower s.rel
  let score := if rel = "next" ∨ rel = "prev" then score + 1000 else score
  -- Tier 2: navigation context
  let score := if s.insideNav then score + 500 else score
  let cls := asciiLower s.className
  let score := if navClasses.any (fun nc => strHas cls nc) then score + 300 else score
  -- Tier 3: text match quality
  let text := asciiLower (strTrim s.text)
  let score := if text ≠ "" then score + ratioContribution 100 text patterns else score
  -- Tier 3b: attribute matches, lower weight, one contribution per field
  let score := (attrFields s).foldl
    (fun sc f => if f ≠ "" then sc + ratioContribution 50 f patterns else sc) score
  -- Tier 4: content filtering penalties
  let score := if s.insideSidebar then score - 200 else score
  let score :=
    match s.parentListLinks with
    | some linkCount => if linkCount > 10 then score - 100 else score
    | none => score
  score

/-- Go `ScoredLink` (the element pointer of the Go struct is not needed by the
selection logic and is dropped). -/
structure ScoredLink where
  url : String
  score : Int
deriving DecidableEq, Repr

structure Nav where
  next : String
  prev : String
deriving DecidableEq, Repr

/-- The body of the `Each` callback of `extractNav`: filter the element and
append it to the per-direction candidate lists. -/
def navStep (baseURL : String) (acc : List ScoredLink × List ScoredLink) (s : Elem) :
    List ScoredLink × List ScoredLink :=
  let elemURL := getURLfromElem s
  if elemURL = "" ∨ isURLsameSiteDiffPage baseURL elemURL = false then acc
  else
    let resolvedURL := resolveURL elemURL baseURL
    let acc1 :=
      if matchesPatterns s patternsNext ∨ hasSemanticNavAttributes s "next" = true then
        (acc.1 ++ [⟨resolvedURL, scoreElement s patternsNext⟩], acc.2)
      else acc
    if matchesPatterns s patternsPrev ∨ hasSemanticNavAttributes s "prev" = true then
      (acc1.1, acc1.2 ++ [⟨resolvedURL, scoreElement s patternsPrev⟩])
    else acc1

/-- The candidate lists (`nextCandidates`, `prevCandidates`) built by the
document scan. -/
def navCandidatesOf (elems : List Elem) (baseURL : String) :
    List ScoredLink × List ScoredLink :=
  elems.foldl (navStep baseURL) ([], [])

/-- The highest-score selection loop of `extractNav` (strict `>`, so the
first-encountered candidate is kept on ties). -/
def foldBest (c : ScoredLink) (cs : List ScoredLink) : ScoredLink :=
  cs.foldl (fun best cand => if cand.score > best.score then cand else best) c

/-- Result of a direction's selection: empty string when no candidate. -/
def selectBest : List ScoredLink → String
  | [] => ""
  | c :: cs => (foldBest c cs).url

/-- Go `extractNav` over the scanned element list. -/
def extractNav (elems : List Elem) (baseURL : String) : Nav :=
  let cands := navCandidatesOf elems baseURL
  ⟨selectBest cands.1, selectBest cands.2⟩

/-- The filter an element must pass to produce candidates: a non-empty
extracted URL that is same-host-different-path relative to the base URL. -/
def passesURLFilter (baseURL : String) (e : Elem) : Prop :=
  getURLfromElem e ≠ "" ∧ isURLsameSiteDiffPage baseURL (getURLfromElem e) = true

/-- Concrete element for the exclusion instances: an external-host link whose
text matches the "next" dictionary. -/
def extHostNextElem : Elem :=
  ⟨"https://other.example/ch2", "", "", "", "", "", "", "", "", "", "",
   "next", false, false, none⟩

/-- Concrete element: a same-document anchor whose text matches "next". -/
def anchorNextElem : Elem :=
  ⟨"#section2", "", "", "", "", "", "", "", "", "", "",
   "next", false, false, none⟩

/-- Modelled from the spec's words, for comparison with the code: an
attribute-match component that takes only the single best-matching
field/phrase pair among id/class/title/aria-label/alt — at most one
attribute contribution, `int(50 * bestRatio)` for the best ratio over all
pairs (ratios compared exactly by cross-multiplication). -/
def attrComponentSinglePair (s : Elem) (patterns : List String) : Int :=
  let pairs := (attrFields s).filterMap fun f =>
    if f ≠ "" then (bestMatchedLen f patterns).map (fun l => (l, byteLen f)) else none
  match pairs.foldl
      (fun best p =>
        match best with
        | none => some p
        | some q => if p.1 * q.2 > q.1 * p.2 then some p else some q)
      none with
  | none => 0
  | some p => Int.ofNat (50 * p.1 / p.2)

/-- Go `scoreElement` with its attribute loop replaced by the spec-worded
single-best-pair component; the claim asserts the code computes this. -/
def scoreElementSinglePairAttr (s : Elem) (patterns : List String) : Int :=
  let score : Int := 0
  let rel := asciiLower s.rel
  let score := if rel = "next" ∨ rel = "prev" then score + 1000 else score
  let score := if s.insideNav then score + 500 else score
  let cls := asciiLower s.className
  let score := if navClasses.any (fun nc => strHas cls nc) then score + 300 else score
  let text := asciiLower (strTrim s.text)
  let score := if text ≠ "" then score + ratioContribution 100 text patterns else score
  let score := score + attrComponentSinglePair s patterns
  let score := if s.insideSidebar then score - 200 else score
  let score :=
    match s.parentListLinks with
    | some linkCount => if linkCount > 10 then score - 100 else score
    | none => score
  score

/-- Everything in `scoreElement` except the attribute loop. -/
def scoreElementNoAttr (s : Elem) (patterns : List String) : Int :=
  let score : Int := 0
  let rel := asciiLower s.rel
  let score := if rel = "next" ∨ rel = "prev" then score + 1000 else score
  let score := if s.insideNav then score + 500 else score
  let cls := asciiLower s.className
  let score := if navClasses.any (fun nc => strHas cls nc) then score + 300 else score
  let text := asciiLower (strTrim s.text)
  let score := if text ≠ "" then score + ratioContribution 100 text patterns else score
  let score := if s.insideSidebar then score - 200 else score
  let score :=
    match s.parentListLinks with
    | some linkCount => if linkCount > 10 then score - 100 else score
    | none => score
  score

/-- An element with two attribute fields (`id` and `class`) that each match
a "next" phrase exactly, and no element text: both contributions enter the
score. -/
def twoAttrElem : Elem :=
  ⟨"/2", "", "", "", "", "next", "next", "", "", "", "", "", false, false, none⟩

/-! ### Readability client supervisor

The supervisor (`ReadabilityClient`) is embedded as a state machine.  The
mutable state is whether `rc.cmd` is still set (`cmdLive`) plus a count
of `os.Remove(rc.udsPath)` calls (`socketRemovals`).  The behaviour of
the worker process and of the caller's context during one `Close` call is
an explicit environment of booleans, one per `select`/signal outcome the
Go code distinguishes.  The mutex serialization of `Parse`/`Close` makes
the sequential composition of these step functions a faithful model of
any interleaving of calls. -/

structure RCState where
  /-- Go `rc.cmd ≠ nil`: the supervisor has not begun shutdown. -/
  cmdLive : Bool
  /-- how many times `os.Remove(rc.udsPath)` has run -/
  socketRemovals : Nat
deriving DecidableEq, Repr

/-- Environment of one `Close` call: which signal/wait races resolve how. -/
structure CloseEnv where
  /-- Go `SIGTERM` returns `os.ErrProcessDone` / "process already finished" -/
  sigtermFindsProcessDone : Bool
  /-- in that case: `waitDone` fires within `TIMEOUT_WAIT_AFTER_KILL` -/
  waitWithinShortAfterDone : Bool
  /-- otherwise: `waitDone` fires before the caller's `ctx.Done()` -/
  waitBeforeCtxDeadline : Bool
  /-- after `SIGKILL`: `waitDone` fires within `TIMEOUT_WAIT_AFTER_KILL` -/
  waitWithinShortAfterKill : Bool
  /-- Go `os.Remove` finds the socket file already missing -/
  socketFileMissing : Bool
deriving DecidableEq, Repr

/-- The six return points of `ReadabilityClient.Close`, in source order. -/
inductive CloseOutcome where
  /-- Go `nil`: already closed or not started -/
  | noopAlreadyClosed
  /-- Go `nil`: process already finished, `Wait()` completed -/
  | alreadyFinishedGraceful
  /-- error: process already finished but `Wait()` timed out -/
  | alreadyFinishedWaitTimeout
  /-- Go `nil`: graceful exit after SIGTERM before the context deadline -/
  | graceful
  /-- error wrapping `ctx.Err()`: closed via kill after timeout -/
  | killedAfterDeadline
  /-- error: timeout, SIGKILL sent but `Wait()` did not complete -/
  | killWaitIncomplete
deriving DecidableEq, Repr

/-- Does the return point return a non-nil error? -/
def isCloseError : CloseOutcome → Bool
  | .noopAlreadyClosed => false
  | .alreadyFinishedGraceful => false
  | .alreadyFinishedWaitTimeout => true
  | .graceful => false
  | .killedAfterDeadline => true
  | .killWaitIncomplete => true

/-- The `ShutdownTimeoutError` class of the spec's error taxonomy: the
return points at which `Wait()` never confirmed the process's exit
("neither graceful nor forced termination confirmed in time").  The
`killedAfterDeadline` error is a different error (termination was
confirmed, via kill). -/
def isShutdownTimeout : CloseOutcome → Bool
  | .alreadyFinishedWaitTimeout => true
  | .killWaitIncomplete => true
  | _ => false

/-- Go `ReadabilityClient.Close`: mark closed first (so the socket path and
state are settled before any waiting), remove the socket file exactly once
via the deferred cleanup on every exit path, then run the
SIGTERM/wait/SIGKILL escalation according to the environment.  The
deferred `os.Remove` result is only logged, so the outcome does not
depend on `socketFileMissing`. -/
def closeStep (env : CloseEnv) (st : RCState) : CloseOutcome × RCState :=
  if st.cmdLive = false then (.noopAlreadyClosed, st)
  else
    let st' : RCState := ⟨false, st.socketRemovals + 1⟩
    if env.sigtermFindsProcessDone then
      if env.waitWithinShortAfterDone then (.alreadyFinishedGraceful, st')
      else (.alreadyFinishedWaitTimeout, st')
    else if env.waitBeforeCtxDeadline then (.graceful, st')
    else if env.waitWithinShortAfterKill then (.killedAfterDeadline, st')
    else (.killWaitIncomplete, st')

/-- Graceful termination confirmed in time: `waitDone` received before the
escalation to SIGKILL. -/
def gracefulConfirmed (env : CloseEnv) : Bool :=
  (env.sigtermFindsProcessDone && env.waitWithinShortAfterDone) ||
  (!env.sigtermFindsProcessDone && env.waitBeforeCtxDeadline)

/-- Forced termination confirmed in time: `waitDone` received within the
short fixed timeout after SIGKILL. -/
def forcedConfirmed (env : CloseEnv) : Bool :=
  !env.sigtermFindsProcessDone && !env.waitBeforeCtxDeadline &&
  env.waitWithinShortAfterKill

/-! #### Parse -/

/-- Go `ReadabilityResponseSuccess`. -/
structure ReadabilityResponseSuccess where
  title : String
  textContent : String
  content : String
  excerpt : String
  siteName : String
  publishedTime : String
deriving DecidableEq, Repr

/-- The zero value of `ReadabilityResponseSuccess`, which is what
`json.Unmarshal` leaves untouched on the JSON literal `null`. -/
def emptyRRS : ReadabilityResponseSuccess := ⟨"", "", "", "", "", ""⟩

/-- The JSON shape of a worker response body, as `encoding/json` sees it. -/
inductive Body where
  /-- the JSON literal `null` -/
  | jsonNull
  /-- a JSON object carrying the success fields -/
  | jsonArticle (a : ReadabilityResponseSuccess)
  /-- a JSON object `{error, details}` (`details` empty when absent) -/
  | jsonErrorObj (error details : String)
  /-- not parseable as JSON -/
  | invalid
deriving DecidableEq, Repr

inductive ParseErr where
  /-- Error "readability client is closed or server process exited" -/
  | clientClosed
  /-- Error "request cancelled or timed out" -/
  | ctxCancelled
  /-- Error "failed to send request to readability server" -/
  | transport
  /-- Error "failed to parse successful response JSON (status ...)" -/
  | jsonParse (status : Nat)
  /-- Error "server returned status ...: error (details)" -/
  | upstream (status : Nat) (message details : String)
  /-- Error "server returned status ...: truncated raw body / status text" -/
  | upstreamRaw (status : Nat) (message : String)
deriving DecidableEq, Repr

/-- Go `http.StatusText` for the statuses exercised here ("" for unknown
codes, as in Go). -/
def statusText : Nat → String
  | 200 => "OK"
  | 400 => "Bad Request"
  | 404 => "Not Found"
  | 405 => "Method Not Allowed"
  | 500 => "Internal Server Error"
  | _ => ""

/-- The response interpretation of `ReadabilityClient.Parse`.  On status
200 the body is unmarshalled into the success struct: `null` leaves the
zero value, an object fills the declared fields (unknown fields such as
`error` are ignored, also leaving the zero value), and non-JSON is a
parse error.  On any other status an `{error, details}` body with a
non-empty error yields the formatted upstream error; otherwise the
trimmed raw body (truncated to 200 bytes, modelled on characters;
substituted by the HTTP status text when empty) is reported. -/
def interpretResponse (status : Nat) (body : Body) (raw : String) :
    Except ParseErr ReadabilityResponseSuccess :=
  if status = 200 then
    match body with
    | .jsonNull => .ok emptyRRS
    | .jsonArticle a => .ok a
    | .jsonErrorObj _ _ => .ok emptyRRS
    | .invalid => .error (.jsonParse status)
  else
    match body with
    | .jsonErrorObj e d =>
      if e ≠ "" then
        .error (.upstream status e (if d ≠ "" then " (" ++ d ++ ")" else ""))
      else
        .error (.upstreamRaw status (genericMsg status raw))
    | _ => .error (.upstreamRaw status (genericMsg status raw))
where
  genericMsg (status : Nat) (raw : String) : String :=
    let errMsg := strTrim raw
    let errMsg :=
      if errMsg.length > 200 then String.mk (errMsg.data.take 200) ++ "..." else errMsg
    if errMsg = "" then statusText status else errMsg

/-- Environment of one `Parse` call once the request goes out. -/
structure ParseEnv where
  /-- Go `rc.httpClient.Do` fails with the context done (cancel/timeout) -/
  ctxDone : Bool
  /-- Go `rc.httpClient.Do` fails for another transport reason -/
  sendFails : Bool
  status : Nat
  body : Body
  raw : String
deriving Repr

/-- Result of one `Parse` call: whether an RPC was attempted over the
socket, and the returned value. -/
structure ParseAttempt where
  rpcSent : Bool
  result : Except ParseErr ReadabilityResponseSuccess
deriving Repr

/-- Go `ReadabilityClient.Parse`: under the mutex, fail immediately with the
closed error when `rc.cmd` is nil — before any request is built or sent —
otherwise attempt the RPC and interpret the outcome. -/
def parseStep (st : RCState) (env : ParseEnv) : ParseAttempt :=
  if st.cmdLive = false then ⟨false, .error .clientClosed⟩
  else if env.ctxDone then ⟨true, .error .ctxCancelled⟩
  else if env.sendFails then ⟨true, .error .transport⟩
  else ⟨true, interpretResponse env.status env.body env.raw⟩

/-! #### Healthcheck and startup -/

/-- Go `ReadabilityClient.healthcheck`: the probe loop.  `probe i` is the
outcome of the i-th `Parse` attempt against the dummy document (`none` =
success, `some msg` = its error); `fuel` is the number of further ticker
rounds the caller's context allows before `ctx.Done()` wins the select.
On expiry the returned error wraps the most recent probe failure,
recorded here with its attempt index. -/
def healthcheckGo (probe : Nat → Option String) : Nat → Nat → Except (Nat × String) Unit
  | i, fuel =>
    match probe i with
    | none => .ok ()
    | some e =>
      match fuel with
      | 0 => .error (i, e)
      | fuel' + 1 => healthcheckGo probe (i + 1) fuel'

/-- Environment of one `NewReadabilityClient` call. -/
structure StartEnv where
  /-- Go `os.Stat(tempDir)` finds a directory -/
  tempDirIsDir : Bool
  /-- Go `os.Stat(serverBinaryPath)` finds the binary -/
  binaryExists : Bool
  /-- Go `cmd.Start()` succeeds -/
  spawnOk : Bool
  probe : Nat → Option String
  /-- ticker rounds until the startup context deadline -/
  hcFuel : Nat
  /-- behaviour of the bounded unwinding `Close` -/
  closeEnv : CloseEnv

/-- Outcomes of `NewReadabilityClient`. -/
inductive StartOutcome where
  /-- Error "... is not a directory" -/
  | errTempDir
  /-- Error "... readability binary does not exist" -/
  | errBinary
  /-- Error "failed to start readability server" -/
  | errSpawn
  /-- Error "server failed health check: ..." wrapping the last probe failure;
  carries the result and final state of the unwinding bounded `Close` -/
  | errHealthCheck (lastProbe : Nat × String) (closeResult : CloseOutcome) (final : RCState)
  /-- healthcheck passed; the supervisor is ready in the given state -/
  | ready (st : RCState)
deriving DecidableEq, Repr

/-- The state of a freshly spawned supervisor: process attached, socket
file present, no removals yet. -/
def freshRCState : RCState := ⟨true, 0⟩

/-- Go `NewReadabilityClient`: validate paths, spawn, health-check; on
health-check failure unwind with a bounded `Close` and return the
health-check error. -/
def newReadabilityClient (env : StartEnv) : StartOutcome :=
  if env.tempDirIsDir = false then .errTempDir
  else if env.binaryExists = false then .errBinary
  else if env.spawnOk = false then .errSpawn
  else
    match healthcheckGo env.probe 0 env.hcFuel with
    | .ok _ => .ready freshRCState
    | .error w =>
      let c := closeStep env.closeEnv freshRCState
      .errHealthCheck w c.1 c.2

/-- A startup environment whose worker never answers: every probe times
out. -/
def deadWorkerEnv : StartEnv :=
  ⟨true, true, true, fun _ => some "request cancelled or timed out", 2,
   ⟨false, false, false, true, false⟩⟩

/-! ### Brotli compression wrappers (`internal/core/utils.go`)

The brotli library (`github.com/andybalholm/brotli`) is external to the
repository; it is abstracted as a codec: `enc` is what the writer pipeline
(`NewWriter`/`Write`/`Close` into an in-memory buffer, where writes cannot
fail) produces for a given input, and `dec` is the reader pipeline
(`NewReader`/`io.ReadAll`), which can fail on corrupt data.  The Go
`string` ↔ `[]byte` conversions are bijective, so the codec is stated
directly on strings; byte slices are `List Nat`, with `[]` playing both
`nil` and the empty slice (indistinguishable to `len`). -/

structure BrotliCodec where
  enc : String → List Nat
  dec : List Nat → Except String String

/-- Go `CompressHTML`: empty input short-circuits to `nil, nil`; otherwise the
brotli writer output is returned. -/
def CompressHTML (c : BrotliCodec) (html : String) : Except String (List Nat) :=
  if html = "" then .ok []
  else .ok (c.enc html)

/-- Go `DecompressHTML`: `nil` or empty input short-circuits to `"", nil`;
otherwise the brotli reader output (or its wrapped error) is returned. -/
def DecompressHTML (c : BrotliCodec) (compressed : List Nat) : Except String String :=
  if compressed.isEmpty then .ok ""
  else
    match c.dec compressed with
    | .ok s => .ok s
    | .error e => .error ("failed to decompress brotli content: " ++ e)

/-- A demonstration codec satisfying the two library-contract hypotheses:
one marker byte followed by the code points. -/
def exCodec : BrotliCodec :=
  ⟨fun s => 0 :: s.data.map Char.toNat,
   fun l =>
     match l with
     | [] => .error "unexpected EOF"
     | _ :: t => .ok (String.mk (t.map Char.ofNat))⟩

/-! ### Selection lemmas for the nav engine -/

theorem foldBest_cons (c d : ScoredLink) (ds : List ScoredLink) :
    foldBest c (d :: ds) = foldBest (if d.score > c.score then d else c) ds := rfl

theorem foldBest_mem (cs : List ScoredLink) : ∀ c, foldBest c cs ∈ c :: cs := by
  induction cs with
  | nil => intro c; simp [foldBest]
  | cons d ds ih =>
    intro c
    rw [foldBest_cons]
    by_cases hdc : d.score > c.score
    · rw [if_pos hdc]
      rcases List.mem_cons.mp (ih d) with h | h
      · rw [h]; simp
      · simp [h]
    · rw [if_neg hdc]
      rcases List.mem_cons.mp (ih c) with h | h
      · rw [h]; simp
      · simp [h]

theorem foldBest_ge (cs : List ScoredLink) :
    ∀ c, ∀ y ∈ c :: cs, y.score ≤ (foldBest c cs).score := by
  induction cs with
  | nil => intro c y hy; simp at hy; simp [foldBest, hy]
  | cons d ds ih =>
    intro c y hy
    rw [foldBest_cons]
    have hc : c.score ≤ (if d.score > c.score then d else c).score := by
      split <;> omega
    have hd : d.score ≤ (if d.score > c.score then d else c).score := by
      split <;> omega
    have hbase := ih (if d.score > c.score then d else c)
      (if d.score > c.score then d else c) (List.mem_cons_self _ _)
    rcases List.mem_cons.mp hy with h | h
    · subst h; omega
    · rcases List.mem_cons.mp h with h | h
      · subst h; omega
      · exact ih _ y (List.mem_cons.mpr (Or.inr h))

theorem foldBest_first (cs : List ScoredLink) :
    ∀ c, foldBest c cs = c ∨
      ∃ pre y post, cs = pre ++ y :: post ∧ foldBest c cs = y ∧
        c.score < y.score ∧ ∀ z ∈ pre, z.score < y.score := by
  induction cs with
  | nil => intro c; exact Or.inl rfl
  | cons d ds ih =>
    intro c
    rw [foldBest_cons]
    by_cases hdc : d.score > c.score
    · rw [if_pos hdc]
      rcases ih d with h | ⟨pre, y, post, hds, hfold, hlt, hpre⟩
      · exact Or.inr ⟨[], d, ds, rfl, h, hdc, by simp⟩
      · refine Or.inr ⟨d :: pre, y, post, by simp [hds], hfold, by omega, ?_⟩
        intro z hz
        rcases List.mem_cons.mp hz with h | h
        · subst h; exact hlt
        · exact hpre z h
    · rw [if_neg hdc]
      rcases ih c with h | ⟨pre, y, post, hds, hfold, hlt, hpre⟩
      · exact Or.inl h
      · refine Or.inr ⟨d :: pre, y, post, by simp [hds], hfold, hlt, ?_⟩
        intro z hz
        rcases List.mem_cons.mp hz with h | h
        · subst h; omega
        · exact hpre z h

/-- C1: For every scanned document (element list) and base URL, each
direction of `extractNav` returns the empty string when that direction has
no qualifying candidate, and otherwise the URL of the candidate with the
maximum total score, with ties broken in favour of the candidate
encountered first in document scan order. -/
theorem extractNav_picks_max_score_first (elems : List Elem) (baseURL : String) :
    ((navCandidatesOf elems baseURL).1 = [] → (extractNav elems baseURL).next = "") ∧
    (∀ c cs, (navCandidatesOf elems baseURL).1 = c :: cs →
      (extractNav elems baseURL).next = (foldBest c cs).url ∧
      foldBest c cs ∈ c :: cs ∧
      (∀ y ∈ c :: cs, y.score ≤ (foldBest c cs).score) ∧
      (foldBest c cs = c ∨
        ∃ pre y post, cs = pre ++ y :: post ∧ foldBest c cs = y ∧
          c.score < y.score ∧ ∀ z ∈ pre, z.score < y.score)) ∧
    ((navCandidatesOf elems baseURL).2 = [] → (extractNav elems baseURL).prev = "") ∧
    (∀ c cs, (navCandidatesOf elems baseURL).2 = c :: cs →
      (extractNav elems baseURL).prev = (foldBest c cs).url ∧
      foldBest c cs ∈ c :: cs ∧
      (∀ y ∈ c :: cs, y.score ≤ (foldBest c cs).score) ∧
      (foldBest c cs = c ∨
        ∃ pre y post, cs = pre ++ y :: post ∧ foldBest c cs = y ∧
          c.score < y.score ∧ ∀ z ∈ pre, z.score < y.score)) := by
  refine ⟨fun h => ?_, fun c cs h => ?_, fun h => ?_, fun c cs h => ?_⟩
  · show selectBest (navCandidatesOf elems baseURL).1 = ""
    rw [h]; rfl
  · have hsel : (extractNav elems baseURL).next = (foldBest c cs).url := by
      show selectBest (navCandidatesOf elems baseURL).1 = _
      rw [h]; rfl
    exact ⟨hsel, foldBest_mem cs c, foldBest_ge cs c, foldBest_first cs c⟩
  · show selectBest (navCandidatesOf elems baseURL).2 = ""
    rw [h]; rfl
  · have hsel : (extractNav elems baseURL).prev = (foldBest c cs).url := by
      show selectBest (navCandidatesOf elems baseURL).2 = _
      rw [h]; rfl
    exact ⟨hsel, foldBest_mem cs c, foldBest_ge cs c, foldBest_first cs c⟩

theorem extractNav_picks_max_score_first_witness :
    (extractNav ([] : List Elem) "https://site.example/ch1").next = "" ∧
    ((extractNav [⟨"/a2", "", "", "", "", "", "", "", "", "", "", "next",
        false, false, none⟩,
      ⟨"/b2", "", "", "", "", "", "", "", "", "", "", "next",
        false, false, none⟩] "https://site.example/ch1").next
      = (foldBest ⟨"https://site.example/a2", 100⟩
          [⟨"https://site.example/b2", 100⟩]).url) :=
  ⟨(extractNav_picks_max_score_first [] "https://site.example/ch1").1 rfl,
   ((extractNav_picks_max_score_first _ "https://site.example/ch1").2.1
      ⟨"https://site.example/a2", 100⟩ [⟨"https://site.example/b2", 100⟩]
      (by decide)).1⟩

/-! ### Filtering lemmas for the nav engine -/

theorem navStep_skip (baseURL : String) (acc : List ScoredLink × List ScoredLink)
    (e : Elem)
    (h : getURLfromElem e = "" ∨ isURLsameSiteDiffPage baseURL (getURLfromElem e) = false) :
    navStep baseURL acc e = acc := by
  unfold navStep
  rw [if_pos h]

theorem navStep_cases (baseURL : String) (acc : List ScoredLink × List ScoredLink)
    (e : Elem) :
    navStep baseURL acc e = acc ∨
    (passesURLFilter baseURL e ∧
      ((navStep baseURL acc e).1 = acc.1 ∨
        (navStep baseURL acc e).1
          = acc.1 ++ [⟨resolveURL (getURLfromElem e) baseURL, scoreElement e patternsNext⟩]) ∧
      ((navStep baseURL acc e).2 = acc.2 ∨
        (navStep baseURL acc e).2
          = acc.2 ++ [⟨resolveURL (getURLfromElem e) baseURL, scoreElement e patternsPrev⟩])) := by
  by_cases hskip : getURLfromElem e = "" ∨ isURLsameSiteDiffPage baseURL (getURLfromElem e) = false
  · exact Or.inl (navStep_skip baseURL acc e hskip)
  · right
    push_neg at hskip
    refine ⟨⟨hskip.1, ?_⟩, ?_⟩
    · cases hb : isURLsameSiteDiffPage baseURL (getURLfromElem e)
      · exact absurd hb hskip.2
      · rfl
    · unfold navStep
      rw [if_neg (by push_neg; exact hskip)]
      by_cases hn : matchesPatterns e patternsNext ∨ hasSemanticNavAttributes e "next" = true <;>
        by_cases hp : matchesPatterns e patternsPrev ∨ hasSemanticNavAttributes e "prev" = true <;>
          simp [hn, hp]

theorem navStep_provenance (baseURL : String) (acc : List ScoredLink × List ScoredLink)
    (e : Elem) (c : ScoredLink) :
    (c ∈ (navStep baseURL acc e).1 →
      c ∈ acc.1 ∨ (passesURLFilter baseURL e ∧ c.url = resolveURL (getURLfromElem e) baseURL)) ∧
    (c ∈ (navStep baseURL acc e).2 →
      c ∈ acc.2 ∨ (passesURLFilter baseURL e ∧ c.url = resolveURL (getURLfromElem e) baseURL)) := by
  rcases navStep_cases baseURL acc e with h | ⟨hpass, h1, h2⟩
  · rw [h]; exact ⟨fun h => Or.inl h, fun h => Or.inl h⟩
  · constructor
    · intro hc
      rcases h1 with h1 | h1
      · rw [h1] at hc; exact Or.inl hc
      · rw [h1] at hc
        rcases List.mem_append.mp hc with hc | hc
        · exact Or.inl hc
        · simp at hc; exact Or.inr ⟨hpass, by rw [hc]⟩
    · intro hc
      rcases h2 with h2 | h2
      · rw [h2] at hc; exact Or.inl hc
      · rw [h2] at hc
        rcases List.mem_append.mp hc with hc | hc
        · exact Or.inl hc
        · simp at hc; exact Or.inr ⟨hpass, by rw [hc]⟩

theorem navCandidates_fold_provenance (baseURL : String) (elems : List Elem) :
    ∀ acc c,
      (c ∈ (List.foldl (navStep baseURL) acc elems).1 →
        c ∈ acc.1 ∨ ∃ e ∈ elems, passesURLFilter baseURL e ∧
          c.url = resolveURL (getURLfromElem e) baseURL) ∧
      (c ∈ (List.foldl (navStep baseURL) acc elems).2 →
        c ∈ acc.2 ∨ ∃ e ∈ elems, passesURLFilter baseURL e ∧
          c.url = resolveURL (getURLfromElem e) baseURL) := by
  induction elems with
  | nil => intro acc c; simp
  | cons e es ih =>
    intro acc c
    constructor
    · intro hc
      rcases (ih (navStep baseURL acc e) c).1 hc with h | ⟨e', he', hp, hu⟩
      · rcases (navStep_provenance baseURL acc e c).1 h with h | ⟨hp, hu⟩
        · exact Or.inl h
        · exact Or.inr ⟨e, List.mem_cons_self _ _, hp, hu⟩
      · exact Or.inr ⟨e', List.mem_cons.mpr (Or.inr he'), hp, hu⟩
    · intro hc
      rcases (ih (navStep baseURL acc e) c).2 hc with h | ⟨e', he', hp, hu⟩
      · rcases (navStep_provenance baseURL acc e c).2 h with h | ⟨hp, hu⟩
        · exact Or.inl h
        · exact Or.inr ⟨e, List.mem_cons_self _ _, hp, hu⟩
      · exact Or.inr ⟨e', List.mem_cons.mpr (Or.inr he'), hp, hu⟩

/-- C2: every candidate produced by the scan comes from an element whose
extracted URL is non-empty and same-host-different-path relative to the
base URL; an element failing that filter contributes nothing to either
direction; and in particular an external-host link and a same-document
anchor are excluded even though their text matches a "next" phrase. -/
theorem navCandidates_url_filter :
    (∀ baseURL elems (c : ScoredLink),
      (c ∈ (navCandidatesOf elems baseURL).1 ∨ c ∈ (navCandidatesOf elems baseURL).2) →
      ∃ e ∈ elems, passesURLFilter baseURL e ∧
        c.url = resolveURL (getURLfromElem e) baseURL) ∧
    (∀ baseURL e,
      (getURLfromElem e = "" ∨ isURLsameSiteDiffPage baseURL (getURLfromElem e) = false) →
      ∀ l1 l2, navCandidatesOf (l1 ++ e :: l2) baseURL = navCandidatesOf (l1 ++ l2) baseURL) ∧
    isURLsameSiteDiffPage "https://site.example/ch1" "https://other.example/ch2" = false ∧
    isURLsameSiteDiffPage "https://site.example/ch1" "#section2" = false ∧
    matchesPatterns extHostNextElem patternsNext = true ∧
    matchesPatterns anchorNextElem patternsNext = true ∧
    navCandidatesOf [extHostNextElem] "https://site.example/ch1" = ([], []) ∧
    navCandidatesOf [anchorNextElem] "https://site.example/ch1" = ([], []) := by
  refine ⟨?_, ?_, by decide, by decide, by decide, by decide, by decide, by decide⟩
  · intro baseURL elems c hc
    rcases hc with hc | hc
    · rcases (navCandidates_fold_provenance baseURL elems ([], []) c).1 hc with h | h
      · simp at h
      · exact h
    · rcases (navCandidates_fold_provenance baseURL elems ([], []) c).2 hc with h | h
      · simp at h
      · exact h
  · intro baseURL e h l1 l2
    unfold navCandidatesOf
    rw [List.foldl_append, List.foldl_append, List.foldl_cons,
      navStep_skip baseURL _ e h]

theorem navCandidates_url_filter_witness :
    navCandidatesOf ([] ++ extHostNextElem :: []) "https://site.example/ch1"
      = navCandidatesOf ([] ++ []) "https://site.example/ch1" :=
  navCandidates_url_filter.2.1 "https://site.example/ch1" extHostNextElem
    (Or.inr (by decide)) [] []

/-! ### Attribute-score component of `scoreElement` (C9) -/

theorem attr_foldl_sum (patterns : List String) (l : List String) :
    ∀ init : Int,
      l.foldl (fun sc f => if f ≠ "" then sc + ratioContribution 50 f patterns else sc) init
        = init + (l.map fun f =>
            if f ≠ "" then ratioContribution 50 f patterns else 0).sum := by
  induction l with
  | nil => intro init; simp
  | cons f fs ih =>
    intro init
    rw [List.foldl_cons, ih, List.map_cons, List.sum_cons]
    by_cases hf : f = ""
    · rw [if_neg (fun h => h hf), if_neg (fun h => h hf)]
      ring
    · rw [if_pos hf, if_pos hf]
      ring

/-- C9 counterexample: on `twoAttrElem` the code adds one attribute
contribution per matching field (two of them, 50 each), not the single
best pair (50). -/
theorem scoreElement_two_attr_contributions :
    scoreElement twoAttrElem patternsNext ≠ scoreElementSinglePairAttr twoAttrElem patternsNext ∧
    scoreElement twoAttrElem patternsNext = 100 ∧
    scoreElementSinglePairAttr twoAttrElem patternsNext = 50 := by
  refine ⟨by decide, by decide, by decide⟩

/-- C9 (amended): the attribute-match component of `scoreElement` uses, for
each of the five fields id/class/title/aria-label/alt, the same
matched-phrase-length over field-length ratio as the text match at the
smaller scale 50 (vs 100), taking the best-matching phrase per field, and
adds one contribution per non-empty matching field (so up to five
attribute contributions are summed, not just the single best pair). -/
theorem scoreElement_attr_sum (s : Elem) (patterns : List String) :
    scoreElement s patterns
      = scoreElementNoAttr s patterns
        + ((attrFields s).map fun f =>
            if f ≠ "" then ratioContribution 50 f patterns else 0).sum := by
  simp only [scoreElement, scoreElementNoAttr]
  rw [attr_foldl_sum]
  cases hpl : s.parentListLinks with
  | none =>
    by_cases hsb : s.insideSidebar <;> (simp [hsb]; try ring)
  | some n =>
    by_cases hsb : s.insideSidebar <;> by_cases hn : n > 10 <;> (simp [hsb, hn]; try ring)

/-! ### Helper lemmas about `closeStep` -/

theorem closeStep_snd (env : CloseEnv) (st : RCState) :
    (closeStep env st).2 = if st.cmdLive then ⟨false, st.socketRemovals + 1⟩ else st := by
  obtain ⟨live, rem⟩ := st
  rcases env with ⟨a, b, c, d, e⟩
  cases live <;> cases a <;> cases b <;> cases c <;> cases d <;> rfl

theorem closeStep_not_live (env : CloseEnv) (st : RCState) :
    (closeStep env st).2.cmdLive = false := by
  rw [closeStep_snd]
  cases hst : st.cmdLive <;> simp [hst]

theorem closeStep_closed (env : CloseEnv) (st : RCState) (h : st.cmdLive = false) :
    closeStep env st = (.noopAlreadyClosed, st) := by
  unfold closeStep
  rw [if_pos h]

/-! ### Claims about the supervisor -/

/-- C3 counterexample: the claim says the HTTP-200/`null` outcome is
distinguishable from a successfully extracted article whose fields happen
to be empty; but `Parse` returns the very same value for both bodies
(`json.Unmarshal` of `null` leaves the zero-valued struct). -/
theorem parse_null_indistinguishable_from_empty_article :
    interpretResponse 200 Body.jsonNull "null"
      = interpretResponse 200 (Body.jsonArticle emptyRRS) "empty-article-object" ∧
    interpretResponse 200 Body.jsonNull "null" = Except.ok emptyRRS := ⟨rfl, rfl⟩

/-- C3 (amended): on HTTP 200 with JSON body `null`, `Parse` returns a
non-error outcome whose fields are all empty — distinguishable from an
error, but identical to (hence not distinguishable from) a successful
extraction whose fields are all empty. -/
theorem parse_null_is_ok_empty (raw : String) (st : RCState) (h : st.cmdLive = true) :
    interpretResponse 200 Body.jsonNull raw = Except.ok emptyRRS ∧
    parseStep st ⟨false, false, 200, Body.jsonNull, raw⟩
      = ⟨true, Except.ok emptyRRS⟩ ∧
    parseStep st ⟨false, false, 200, Body.jsonNull, raw⟩
      = parseStep st ⟨false, false, 200, Body.jsonArticle emptyRRS, raw⟩ := by
  refine ⟨rfl, ?_, ?_⟩ <;> simp [parseStep, h, interpretResponse]

theorem parse_null_is_ok_empty_witness :
    interpretResponse 200 Body.jsonNull "null" = Except.ok emptyRRS ∧
    parseStep freshRCState ⟨false, false, 200, Body.jsonNull, "null"⟩
      = ⟨true, Except.ok emptyRRS⟩ ∧
    parseStep freshRCState ⟨false, false, 200, Body.jsonNull, "null"⟩
      = parseStep freshRCState ⟨false, false, 200, Body.jsonArticle emptyRRS, "null"⟩ :=
  parse_null_is_ok_empty "null" freshRCState rfl

/-- C4: every `Parse` issued after a `Close` has begun on the same
supervisor (whatever the shutdown path, and also when the supervisor was
already closed) fails with the closed-supervisor error and attempts no
RPC over the socket. -/
theorem parse_after_close_closed_no_rpc (cenv : CloseEnv) (st : RCState) (penv : ParseEnv) :
    parseStep (closeStep cenv st).2 penv
      = ⟨false, Except.error ParseErr.clientClosed⟩ ∧
    (closeStep cenv st).2.cmdLive = false := by
  have hlive := closeStep_not_live cenv st
  refine ⟨?_, hlive⟩
  unfold parseStep
  rw [hlive]
  rfl

/-- C5: `Close` reports a shutdown-timeout error (a "`Wait()` did not
complete" return) exactly when neither graceful nor forced termination
was confirmed in time; in particular when the context deadline fires, the
kill signal is sent, and the exit is then confirmed within the short
fixed timeout, the result is the closed-via-kill return, which is not a
shutdown-timeout failure. -/
theorem close_shutdown_timeout_only_unconfirmed (env : CloseEnv) (st : RCState)
    (h : st.cmdLive = true) :
    isShutdownTimeout (closeStep env st).1
      = (!(gracefulConfirmed env) && !(forcedConfirmed env)) ∧
    (env.sigtermFindsProcessDone = false → env.waitBeforeCtxDeadline = false →
      env.waitWithinShortAfterKill = true →
      (closeStep env st).1 = CloseOutcome.killedAfterDeadline ∧
      isShutdownTimeout (closeStep env st).1 = false) := by
  obtain ⟨live, rem⟩ := st
  subst h
  obtain ⟨a, b, c, d, e⟩ := env
  constructor
  · cases a <;> cases b <;> cases c <;> cases d <;> rfl
  · intro ha hc hd
    subst ha; subst hc; subst hd
    exact ⟨rfl, rfl⟩

theorem close_shutdown_timeout_only_unconfirmed_witness :
    isShutdownTimeout (closeStep ⟨false, false, false, true, false⟩ freshRCState).1
      = (!(gracefulConfirmed ⟨false, false, false, true, false⟩) &&
         !(forcedConfirmed ⟨false, false, false, true, false⟩)) ∧
    (closeStep ⟨false, false, false, true, false⟩ freshRCState).1
      = CloseOutcome.killedAfterDeadline ∧
    isShutdownTimeout (closeStep ⟨false, false, false, true, false⟩ freshRCState).1
      = false :=
  ⟨(close_shutdown_timeout_only_unconfirmed ⟨false, false, false, true, false⟩
      freshRCState rfl).1,
   (close_shutdown_timeout_only_unconfirmed ⟨false, false, false, true, false⟩
      freshRCState rfl).2 rfl rfl rfl⟩

/-- C6: a second `Close` on an already-closed supervisor is a no-op
success — it returns the nil outcome and leaves the state (including the
socket-removal count) untouched, so two consecutive `Close` calls are
equivalent to one. -/
theorem close_idempotent (env1 env2 : CloseEnv) (st : RCState) :
    closeStep env2 (closeStep env1 st).2
      = (CloseOutcome.noopAlreadyClosed, (closeStep env1 st).2) ∧
    isCloseError CloseOutcome.noopAlreadyClosed = false :=
  ⟨closeStep_closed env2 _ (closeStep_not_live env1 st), rfl⟩

/-- C8: on every first `Close` — whatever shutdown path the environment
selects — the socket file is removed exactly once, a second `Close` does
not attempt the removal again, and the outcome and state never depend on
whether the file was already missing (missing-file deletion errors are
only logged). -/
theorem close_socket_removed_exactly_once (env env2 : CloseEnv) (st : RCState)
    (h : st.cmdLive = true) :
    (closeStep env st).2.socketRemovals = st.socketRemovals + 1 ∧
    (closeStep env2 (closeStep env st).2).2.socketRemovals = st.socketRemovals + 1 ∧
    closeStep ⟨env.sigtermFindsProcessDone, env.waitWithinShortAfterDone,
      env.waitBeforeCtxDeadline, env.waitWithinShortAfterKill, true⟩ st
      = closeStep ⟨env.sigtermFindsProcessDone, env.waitWithinShortAfterDone,
          env.waitBeforeCtxDeadline, env.waitWithinShortAfterKill, false⟩ st := by
  have h1 : (closeStep env st).2.socketRemovals = st.socketRemovals + 1 := by
    rw [closeStep_snd, h]
    rfl
  refine ⟨h1, ?_, ?_⟩
  · rw [closeStep_closed env2 _ (closeStep_not_live env st)]
    exact h1
  · rcases env with ⟨a, b, c, d, e⟩
    obtain ⟨live, rem⟩ := st
    cases live <;> cases a <;> cases b <;> cases c <;> cases d <;> rfl

theorem close_socket_removed_exactly_once_witness :
    (closeStep ⟨true, true, false, false, false⟩ freshRCState).2.socketRemovals
        = freshRCState.socketRemovals + 1 ∧
    (closeStep ⟨false, false, true, false, false⟩
        (closeStep ⟨true, true, false, false, false⟩ freshRCState).2).2.socketRemovals
      = freshRCState.socketRemovals + 1 ∧
    closeStep ⟨true, true, false, false, true⟩ freshRCState
      = closeStep ⟨true, true, false, false, false⟩ freshRCState :=
  close_socket_removed_exactly_once ⟨true, true, false, false, false⟩
    ⟨false, false, true, false, false⟩ freshRCState rfl

/-- The healthcheck loop on an all-failing probe sequence returns, at
context expiry, the error of the most recent (last attempted) probe. -/
theorem healthcheckGo_all_fail (probe : Nat → Option String) (e : Nat → String) :
    ∀ fuel i, (∀ j, j ≤ fuel → probe (i + j) = some (e (i + j))) →
      healthcheckGo probe i fuel = .error (i + fuel, e (i + fuel)) := by
  intro fuel
  induction fuel with
  | zero =>
    intro i hp
    have h0 := hp 0 (Nat.le_refl 0)
    rw [Nat.add_zero] at h0
    unfold healthcheckGo
    rw [h0]
    simp
  | succ n ih =>
    intro i hp
    have h0 := hp 0 (Nat.zero_le _)
    rw [Nat.add_zero] at h0
    unfold healthcheckGo
    rw [h0]
    have hrec := ih (i + 1) (fun j hj => by
      have hp' := hp (j + 1) (Nat.succ_le_succ hj)
      rwa [Nat.add_comm j 1, ← Nat.add_assoc] at hp')
    show healthcheckGo probe (i + 1) n = _
    rw [hrec, Nat.add_assoc, Nat.add_comm 1 n]

/-- C7: when the worker answers no probe before the startup deadline,
`NewReadabilityClient` returns the health-check failure wrapping the most
recent probe error, after unwinding with a bounded `Close` whose final
state has no live worker process. -/
theorem newClient_healthcheck_failure_unwinds (env : StartEnv) (e : Nat → String)
    (hdir : env.tempDirIsDir = true) (hbin : env.binaryExists = true)
    (hspawn : env.spawnOk = true)
    (hprobe : ∀ j, j ≤ env.hcFuel → env.probe j = some (e j)) :
    newReadabilityClient env
      = StartOutcome.errHealthCheck (env.hcFuel, e env.hcFuel)
          (closeStep env.closeEnv freshRCState).1 (closeStep env.closeEnv freshRCState).2 ∧
    (closeStep env.closeEnv freshRCState).2.cmdLive = false := by
  have hhc : healthcheckGo env.probe 0 env.hcFuel
      = .error (env.hcFuel, e env.hcFuel) := by
    have := healthcheckGo_all_fail env.probe e env.hcFuel 0
      (fun j hj => by rw [Nat.zero_add]; exact hprobe j hj)
    rwa [Nat.zero_add] at this
  constructor
  · unfold newReadabilityClient
    rw [if_neg (by simp [hdir]), if_neg (by simp [hbin]), if_neg (by simp [hspawn]), hhc]
  · exact closeStep_not_live env.closeEnv freshRCState

theorem newClient_healthcheck_failure_unwinds_witness :
    newReadabilityClient deadWorkerEnv
      = StartOutcome.errHealthCheck (2, "request cancelled or timed out")
          (closeStep deadWorkerEnv.closeEnv freshRCState).1
          (closeStep deadWorkerEnv.closeEnv freshRCState).2 ∧
    (closeStep deadWorkerEnv.closeEnv freshRCState).2.cmdLive = false :=
  newClient_healthcheck_failure_unwinds deadWorkerEnv
    (fun _ => "request cancelled or timed out") rfl rfl rfl (fun _ _ => rfl)

/-- C10: provided the brotli codec round-trips (its library contract) and
compressed output of a non-empty input is never empty (brotli always emits
stream framing bytes), `DecompressHTML ∘ CompressHTML` is the identity on
every string; and the empty-string case short-circuits on both sides:
`CompressHTML ""` is `nil` bytes with no error and `DecompressHTML` of
`nil`/empty bytes is the empty string with no error. -/
theorem compressHTML_decompressHTML_roundtrip (c : BrotliCodec)
    (hrt : ∀ s, c.dec (c.enc s) = Except.ok s)
    (hne : ∀ s, s ≠ "" → c.enc s ≠ []) :
    (∀ s, (CompressHTML c s).bind (DecompressHTML c) = Except.ok s) ∧
    CompressHTML c "" = Except.ok [] ∧
    DecompressHTML c [] = Except.ok "" := by
  refine ⟨?_, rfl, rfl⟩
  intro s
  by_cases hs : s = ""
  · subst hs
    rfl
  · unfold CompressHTML
    rw [if_neg hs]
    show DecompressHTML c (c.enc s) = Except.ok s
    unfold DecompressHTML
    rw [if_neg (by simp [List.isEmpty_iff, hne s hs]), hrt s]

theorem compressHTML_decompressHTML_roundtrip_witness :
    (CompressHTML exCodec "ab").bind (DecompressHTML exCodec) = Except.ok "ab" ∧
    (CompressHTML exCodec "").bind (DecompressHTML exCodec) = Except.ok "" :=
  have hrt : ∀ s, exCodec.dec (exCodec.enc s) = Except.ok s := fun s => by
    show Except.ok (String.mk ((s.data.map Char.toNat).map Char.ofNat)) = Except.ok s
    rw [List.map_map]
    have : (s.data.map (Char.ofNat ∘ Char.toNat)) = s.data :=
      List.map_congr_left (fun c _ => Char.ofNat_toNat c) ▸ List.map_id s.data
    rw [show (Char.ofNat ∘ Char.toNat) = id from funext (fun c => Char.ofNat_toNat c),
      List.map_id]
  have hne : ∀ s, s ≠ "" → exCodec.enc s ≠ [] := fun s _ => List.cons_ne_nil _ _
  ⟨(compressHTML_decompressHTML_roundtrip exCodec hrt hne).1 "ab",
   (compressHTML_decompressHTML_roundtrip exCodec hrt hne).1 ""⟩

end Kindlepathy
